import Mathlib

/-!
Shallow embedding of the port-discovery Raycast extension
(`src/index.tsx`, main command; `src/unnamed/part_000`, menu-bar command).

External effects (`execSync`, `exec`, the preference store) are modelled by
explicit parameters: a command's outcome is an `Except` value (a thrown
exception is `.error`), per-pid lookups are oracle functions, and the stored
hidden-port list is passed in and returned.  JavaScript numbers produced by
`parseInt` are modelled as `Option Int` (`none` = `NaN`).  Display-name
derivation (`getDisplayName`) is omitted: no stated property concerns it.
-/

namespace ActivePorts

/-- JavaScript number resulting from `parseInt`: `none` models `NaN`. -/
abbrev JSNum := Option Int

/-- Result of a synchronous external command: `.error` models a thrown
exception, `.ok` the captured stdout. -/
abbrev ExecRes := Except Unit String

/-- Numeric value of a list of decimal digit characters. -/
def natOfDigits (ds : List Char) : Nat :=
  ds.foldl (fun n c => 10 * n + (c.toNat - '0'.toNat)) 0

/-- JavaScript `s.trim()`: strip leading and trailing whitespace. -/
def jsTrim (s : String) : String :=
  String.mk ((s.data.dropWhile Char.isWhitespace).reverse.dropWhile Char.isWhitespace).reverse

/-- JavaScript `parseInt(s, 10)`: skip leading whitespace, optional sign,
then the maximal run of decimal digits; `NaN` (= `none`) when no digit. -/
def parseIntJS (s : String) : JSNum :=
  let l := s.data.dropWhile Char.isWhitespace
  let sign : Int := match l with | '-' :: _ => -1 | _ => 1
  let l2 := match l with | '-' :: t => t | '+' :: t => t | _ => l
  let ds := l2.takeWhile Char.isDigit
  if ds.isEmpty then none else some (sign * (natOfDigits ds : Int))

/-- `needle` occurs as a contiguous sublist of `hay`. -/
def containsSub (hay needle : List Char) : Bool :=
  if needle.isPrefixOf hay then true
  else match hay with
    | [] => false
    | _ :: t => containsSub t needle

/-- Lowercased character sequence of a string (`s.toLowerCase()`; ASCII
suffices for the patterns used here). -/
def lowerChars (s : String) : List Char :=
  s.data.map Char.toLower

/-- Case-insensitive substring test, modelling `/pat/i.test(s)` for a literal
pattern: both sides are lowercased. -/
def containsCI (hay needle : String) : Bool :=
  containsSub (lowerChars hay) (lowerChars needle)

/-- Service-detection flags, mirroring `interface ServiceFlags`. -/
structure ServiceFlags where
  isVite : Bool
  isFastAPI : Bool
  isFlask : Bool
  isNextJS : Bool
  isSvelteKit : Bool
  isDevServer : Bool
deriving DecidableEq, Repr

/-- `detectServiceType` from `src/index.tsx` (lines 51-60): independent
case-insensitive pattern tests on the full command line.  Note that
`isDevServer` is the disjunction of `isVite`, `isNextJS`, `isSvelteKit` and
the secondary `webpack|nuxt|remix|astro` pattern only. -/
def detectServiceType (command : String) : ServiceFlags :=
  let isVite := containsCI command "vite" || containsCI command "@vitejs"
  let isFastAPI := containsCI command "uvicorn" || containsCI command "fastapi"
  let isFlask := containsCI command "flask"
  let isNextJS := containsCI command "next-server" || containsCI command "next dev"
      || containsCI command "next start"
  let isSvelteKit := containsCI command "svelte"
  let isDevServer := isVite || isNextJS || isSvelteKit ||
      (containsCI command "webpack" || containsCI command "nuxt"
        || containsCI command "remix" || containsCI command "astro")
  ⟨isVite, isFastAPI, isFlask, isNextJS, isSvelteKit, isDevServer⟩

/-- C2 counterexample: the command `uvicorn main:app --port 8000` sets the
ASGI flag (`isFastAPI`) but the code leaves `isDevServer` false, because
`detectServiceType` does not fold `isFastAPI` (nor `isFlask`) into
`isDevServer`; the claim asserts both should be true. -/
theorem C2_counterexample :
    (detectServiceType "uvicorn main:app --port 8000").isFastAPI = true ∧
    (detectServiceType "uvicorn main:app --port 8000").isDevServer = false := by
  constructor <;> decide

/-- C2 amended: `isDevServer` is exactly the disjunction of the Vite,
Next.js and SvelteKit flags with the secondary `webpack|nuxt|remix|astro`
pattern; the FastAPI and Flask flags do not feed into it, so the
`uvicorn main:app --port 8000` record has its ASGI flag true and
`isDevServer` false. -/
theorem C2_amended (c : String) :
    (detectServiceType c).isDevServer =
      ((detectServiceType c).isVite || (detectServiceType c).isNextJS
        || (detectServiceType c).isSvelteKit ||
        (containsCI c "webpack" || containsCI c "nuxt"
          || containsCI c "remix" || containsCI c "astro")) ∧
    (detectServiceType "uvicorn main:app --port 8000").isFastAPI = true ∧
    (detectServiceType "uvicorn main:app --port 8000").isDevServer = false := by
  refine ⟨rfl, ?_, ?_⟩ <;> decide

/-- C2 amended, witnessed at a concrete Vite command line. -/
theorem C2_amended_witness :
    (detectServiceType "node vite --port 3000").isDevServer =
      ((detectServiceType "node vite --port 3000").isVite
        || (detectServiceType "node vite --port 3000").isNextJS
        || (detectServiceType "node vite --port 3000").isSvelteKit ||
        (containsCI "node vite --port 3000" "webpack"
          || containsCI "node vite --port 3000" "nuxt"
          || containsCI "node vite --port 3000" "remix"
          || containsCI "node vite --port 3000" "astro")) :=
  (C2_amended "node vite --port 3000").1

/-- Container identity, mirroring `interface DockerInfo`; `image` is optional
because a row with exactly one tab yields `image === undefined`. -/
structure DockerInfo where
  container : String
  image : Option String
deriving DecidableEq, Repr

/-- Maximal prefix of decimal digits together with the remaining characters. -/
def takeDigits (l : List Char) : List Char × List Char :=
  (l.takeWhile Char.isDigit, l.dropWhile Char.isDigit)

/-- Match an IPv4 address (`\d+\.\d+\.\d+\.\d+`) at the head of `l`,
returning the remaining characters. -/
def tryIPv4 (l : List Char) : Option (List Char) :=
  let (d1, r1) := takeDigits l
  if d1.isEmpty then none else
  match r1 with
  | '.' :: r2 =>
    let (d2, r3) := takeDigits r2
    if d2.isEmpty then none else
    match r3 with
    | '.' :: r4 =>
      let (d3, r5) := takeDigits r4
      if d3.isEmpty then none else
      match r5 with
      | '.' :: r6 =>
        let (d4, r7) := takeDigits r6
        if d4.isEmpty then none else some r7
      | _ => none
    | _ => none
  | _ => none

/-- Match `(?:\d+\.\d+\.\d+\.\d+|::):(\d+)->` at the head of `l`: the host
port and the characters after the match. -/
def tryPortMatch (l : List Char) : Option (Nat × List Char) :=
  let addrRest : Option (List Char) :=
    match tryIPv4 l with
    | some r => some r
    | none => match l with
      | ':' :: ':' :: r => some r
      | _ => none
  match addrRest with
  | none => none
  | some r =>
    match r with
    | ':' :: r2 =>
      let (ds, r3) := takeDigits r2
      if ds.isEmpty then none else
      match r3 with
      | '-' :: '>' :: r4 => some (natOfDigits ds, r4)
      | _ => none
    | _ => none

/-- `ports.matchAll(regex)` scan: collect every match left to right, resuming
after each match, otherwise advancing one character.  Fuelled by the input
length, which each step consumes at least one unit of. -/
def scanPortsAux : Nat → List Char → List Nat
  | 0, _ => []
  | _ + 1, [] => []
  | fuel + 1, c :: cs =>
    match tryPortMatch (c :: cs) with
    | some (p, rest) => p :: scanPortsAux fuel rest
    | none => scanPortsAux fuel cs

/-- All host ports mentioned by a `Ports` column value, in match order. -/
def portMatches (ports : String) : List Nat :=
  scanPortsAux ports.length ports.data

/-- Auxiliary single-character splitter (structural, so it evaluates): the
accumulator holds the current piece reversed. -/
def splitCharAux (sep : Char) : List Char → List Char → List String
  | acc, [] => [String.mk acc.reverse]
  | acc, c :: cs =>
    if c = sep then String.mk acc.reverse :: splitCharAux sep [] cs
    else splitCharAux sep (c :: acc) cs

/-- JavaScript `s.split(sep)` for a one-character separator: pieces between
separator occurrences, keeping empty pieces. -/
def jsSplitChar (sep : Char) (s : String) : List String :=
  splitCharAux sep [] s.data

/-- JavaScript `s.split("\n")`. -/
def jsSplitNewline (s : String) : List String :=
  jsSplitChar '\n' s

/-- Loop body of `getDockerPorts`: one `docker ps` output line per row.
`Map.set` is modelled by appending and reading the last binding.  A row with
no tab makes `ports` `undefined`, so `ports.matchAll` throws and the `catch`
returns the map built so far. -/
def dockerLoop : List (Nat × DockerInfo) → List String → List (Nat × DockerInfo)
  | m, [] => m
  | m, line :: rest =>
    if jsTrim line = "" then dockerLoop m rest
    else match jsSplitChar '\t' line with
      | container :: ports :: restCols =>
        dockerLoop
          (m ++ (portMatches ports).map (fun p => (p, ⟨container, restCols.head?⟩)))
          rest
      | _ => m

/-- `getDockerPorts` from `src/index.tsx` (lines 67-86): parse the container
listing into a host-port map; any thrown error yields the empty map. -/
def getDockerPorts (out : ExecRes) : List (Nat × DockerInfo) :=
  match out with
  | .error _ => []
  | .ok output => dockerLoop [] (jsSplitNewline output)

/-- `Map.get` on the port map: the value of the last binding for the key. -/
def dockerGet (m : List (Nat × DockerInfo)) (p : Nat) : Option DockerInfo :=
  (m.reverse.find? (fun e => e.1 == p)).map (fun e => e.2)

/-- Discovered-port record, mirroring `interface PortInfo`.  `displayName`,
`projectPath` and `pageTitle` are omitted: purely presentational, no stated
property concerns them. -/
structure PortInfo where
  port : Nat
  pid : JSNum
  command : String
  user : String
  cwd : Option String
  isVite : Bool
  isFastAPI : Bool
  isFlask : Bool
  isNextJS : Bool
  isSvelteKit : Bool
  isDevServer : Bool
  dockerContainer : Option String
  dockerImage : Option String
deriving DecidableEq, Repr

/-- The parser's running `currentPid` / `currentCommand` / `currentUser`. -/
structure PState where
  pid : JSNum
  cmd : String
  user : String
deriving DecidableEq, Repr

/-- Initial parser state: `currentPid = 0`, empty command and user. -/
def initPState : PState := ⟨some 0, "", ""⟩

/-- Enrichment block of `getActivePorts` (lines 222-236): one `try` holding
first the working-directory lookup, then the `ps` full-command lookup; a
throw in either skips the remainder of the block and keeps the values
assigned so far; an empty trimmed result falls back (`|| undefined`,
`|| currentCommand`). -/
def enrich (cwdRes psRes : ExecRes) (currentCommand : String) :
    Option String × String :=
  match cwdRes with
  | .error _ => (none, currentCommand)
  | .ok c =>
    let cwd := if jsTrim c = "" then none else some (jsTrim c)
    match psRes with
    | .error _ => (cwd, currentCommand)
    | .ok p => (cwd, if jsTrim p = "" then currentCommand else jsTrim p)

/-- Port suffix extraction `value.match(/:(\d+)$/)`: the maximal trailing
digit run, which must be nonempty and preceded by a colon. -/
def portOfName (value : String) : Option Nat :=
  let rev := value.data.reverse
  let ds := rev.takeWhile Char.isDigit
  if ds.isEmpty then none
  else match rev.dropWhile Char.isDigit with
    | ':' :: _ => some (natOfDigits ds.reverse)
    | _ => none

/-- Record assembled for a freshly seen port (body of the `n` case of the
parse loop).  The per-pid lookups are oracles `cwdL` / `psL`. -/
def mkRecord (dm : List (Nat × DockerInfo)) (cwdL psL : JSNum → ExecRes)
    (st : PState) (port : Nat) : PortInfo :=
  let e := enrich (cwdL st.pid) (psL st.pid) st.cmd
  let fullCommand := e.2
  let flags := detectServiceType fullCommand
  let di := dockerGet dm port
  { port := port
    pid := st.pid
    command := fullCommand
    user := st.user
    cwd := e.1
    isVite := flags.isVite
    isFastAPI := flags.isFastAPI
    isFlask := flags.isFlask
    isNextJS := flags.isNextJS
    isSvelteKit := flags.isSvelteKit
    isDevServer := flags.isDevServer
    dockerContainer := di.map (fun d => d.container)
    dockerImage := di.bind (fun d => d.image) }

/-- What the parse loop's `switch` does with one `lsof -F pcLn` line. -/
inductive LineView where
  | skip : LineView
  | setPid (v : String) : LineView
  | setCmd (v : String) : LineView
  | setUser (v : String) : LineView
  | nPort (port : Nat) : LineView
deriving DecidableEq, Repr

/-- Classify one line: empty lines and unknown tags are skipped; `p`, `c`,
`L` update the running state; an `n` line with a `:port` suffix yields the
port, otherwise it is skipped. -/
def lineView (line : String) : LineView :=
  match line.data with
  | [] => .skip
  | t :: v =>
    let value := String.mk v
    if t = 'p' then .setPid value
    else if t = 'c' then .setCmd value
    else if t = 'L' then .setUser value
    else if t = 'n' then
      match portOfName value with
      | some port => .nPort port
      | none => .skip
    else .skip

/-- One iteration of the parse loop of `getActivePorts` (lines 199-257):
`portMap.has(String(port))` dedups by port (`String` on distinct numbers is
injective, so the map is keyed by the port itself here). -/
def parseStep (dm : List (Nat × DockerInfo)) (cwdL psL : JSNum → ExecRes)
    (acc : PState × List PortInfo) (line : String) : PState × List PortInfo :=
  match lineView line with
  | .skip => acc
  | .setPid v => ({ acc.1 with pid := parseIntJS v }, acc.2)
  | .setCmd v => ({ acc.1 with cmd := v }, acc.2)
  | .setUser v => ({ acc.1 with user := v }, acc.2)
  | .nPort port =>
    if acc.2.any (fun r => r.port == port) then acc
    else (acc.1, acc.2 ++ [mkRecord dm cwdL psL acc.1 port])

/-- The parse loop over all lines, returning the port map's values in
insertion order. -/
def parsePorts (dm : List (Nat × DockerInfo)) (cwdL psL : JSNum → ExecRes)
    (lines : List String) : List PortInfo :=
  (lines.foldl (parseStep dm cwdL psL) (initPState, [])).2

/-- Ports of the `n` lines carrying a valid `:port` suffix, in raw order
(with repetitions). -/
def extractedPorts : List String → List Nat
  | [] => []
  | line :: rest =>
    match lineView line with
    | .nPort p => p :: extractedPorts rest
    | _ => extractedPorts rest

/-- The record the parser would build at the first `n` line for port `p`,
scanning the raw lines while tracking the running state. -/
def firstRecordFor (dm : List (Nat × DockerInfo)) (cwdL psL : JSNum → ExecRes)
    (p : Nat) : PState → List String → Option PortInfo
  | _, [] => none
  | st, line :: rest =>
    match lineView line with
    | .skip => firstRecordFor dm cwdL psL p st rest
    | .setPid v => firstRecordFor dm cwdL psL p { st with pid := parseIntJS v } rest
    | .setCmd v => firstRecordFor dm cwdL psL p { st with cmd := v } rest
    | .setUser v => firstRecordFor dm cwdL psL p { st with user := v } rest
    | .nPort q =>
      if q = p then some (mkRecord dm cwdL psL st p)
      else firstRecordFor dm cwdL psL p st rest

/-- `Array.from(portMap.values()).sort((a, b) => a.port - b.port)`. -/
def sortByPort (l : List PortInfo) : List PortInfo :=
  l.insertionSort (fun a b => a.port ≤ b.port)

/-- Parse and sort: the pure part of `getActivePorts` after the `lsof`
output has been read and split into lines. -/
def parseActivePorts (dm : List (Nat × DockerInfo)) (cwdL psL : JSNum → ExecRes)
    (lines : List String) : List PortInfo :=
  sortByPort (parsePorts dm cwdL psL lines)

/-- `getActivePorts` from `src/index.tsx` (lines 182-260).  The `execSync`
of `lsof` is the `lsofOut` parameter; there is no `try` around it, so a
thrown error propagates.  Empty (whitespace-only) output returns `[]`
before the container query runs. -/
def getActivePorts (lsofOut : Except String String) (dockerOut : ExecRes)
    (cwdL psL : JSNum → ExecRes) : Except String (List PortInfo) :=
  match lsofOut with
  | .error e => .error e
  | .ok output =>
    if jsTrim output = "" then .ok []
    else .ok (parseActivePorts (getDockerPorts dockerOut) cwdL psL (jsSplitNewline output))

/-- Try the regex `uvicorn\s+([^\s]+)` at the head of `l`: the literal
`uvicorn`, at least one whitespace character, then the maximal nonempty run
of non-whitespace characters (the captured app module). -/
def tryUvicornAt (l : List Char) : Option String :=
  if "uvicorn".data.isPrefixOf l then
    let rest := l.drop 7
    if (rest.takeWhile Char.isWhitespace).isEmpty then none
    else
      let tok := (rest.dropWhile Char.isWhitespace).takeWhile (fun ch => !ch.isWhitespace)
      if tok.isEmpty then none else some (String.mk tok)
  else none

/-- Leftmost-match scan for `uvicorn\s+([^\s]+)`: try each start position
left to right. -/
def scanUvicorn : List Char → Option String
  | [] => none
  | c :: tl =>
    match tryUvicornAt (c :: tl) with
    | some tok => some tok
    | none => scanUvicorn tl

/-- `info.command.match(/uvicorn\s+([^\s]+)/)?.[1]`. -/
def extractAppModule (c : String) : Option String :=
  scanUvicorn c.data

/-- `appMatch?.[1] || "main:app"` (line 354). -/
def appModuleOf (c : String) : String :=
  (extractAppModule c).getD "main:app"

/-- JavaScript `a || b` on an optional string: `undefined` and the empty
string are falsy (`info.cwd || process.cwd()`). -/
def jsOr (a : Option String) (b : String) : String :=
  match a with
  | none => b
  | some s => if s = "" then b else s

/-- Outcome of a restart form submission.  `rejected` is the validation
early-return, before the kill and the launch.  `confirmed` records the
termination attempt's outcome (which the `try/catch` ignores), the execution
directory, and the issued launch command; the success toast is shown
unconditionally afterwards. -/
inductive RestartOutcome where
  | rejected : RestartOutcome
  | confirmed (killSucceeded : Bool) (dir : String) (launch : String) : RestartOutcome
deriving DecidableEq, Repr

/-- `handleSubmit` of `RestartFastAPIForm` (lines 335-369): validate the
port string with `parseInt`, kill (failure tolerated), then launch
`uvicorn <app> --port <port>[ --reload]` in the record's directory. -/
def handleSubmitFastAPI (newPort : String) (reload : Bool) (info : PortInfo)
    (killOk : Bool) (callerCwd : String) : RestartOutcome :=
  match parseIntJS newPort with
  | none => .rejected
  | some port =>
    if port < 1 ∨ port > 65535 then .rejected
    else
      let cwd := jsOr info.cwd callerCwd
      let reloadFlag := if reload then " --reload" else ""
      let appModule := appModuleOf info.command
      .confirmed killOk cwd
        ("cd \"" ++ cwd ++ "\" && uvicorn " ++ appModule ++ " --port "
          ++ toString port ++ reloadFlag)

/-- `handleSubmit` of `RestartViteForm` (lines 285-314): same validation and
kill tolerance, launching `npm run dev -- --port <port>`. -/
def handleSubmitVite (newPort : String) (info : PortInfo) (killOk : Bool)
    (callerCwd : String) : RestartOutcome :=
  match parseIntJS newPort with
  | none => .rejected
  | some port =>
    if port < 1 ∨ port > 65535 then .rejected
    else
      let cwd := jsOr info.cwd callerCwd
      .confirmed killOk cwd
        ("cd \"" ++ cwd ++ "\" && npm run dev -- --port " ++ toString port)

/-- `hidePort` (lines 810-820): the stored list gains the port only when it
is not already present; otherwise no write happens. -/
def hidePort (current : List Nat) (port : Nat) : List Nat :=
  if port ∈ current then current else current ++ [port]

/-- `unhidePort` (lines 822-830): `current.filter((p) => p !== port)`. -/
def unhidePort (current : List Nat) (port : Nat) : List Nat :=
  current.filter (fun p => p ≠ port)

/-- Menu-bar record, mirroring the `PortInfo` interface of the menu-bar
command (`src/unnamed/part_000`). -/
structure MenubarPortInfo where
  port : Nat
  pid : JSNum
  command : String
  isVite : Bool
deriving DecidableEq, Repr

/-- JavaScript `line.split(/\s+/)`: pieces between maximal whitespace runs,
with a leading (trailing) empty piece when the line starts (ends) with
whitespace.  Fuelled by the input length, consumed at least one per step. -/
def jsSplitWSAux : Nat → List Char → List Char → List String
  | 0, acc, _ => [String.mk acc.reverse]
  | _ + 1, acc, [] => [String.mk acc.reverse]
  | fuel + 1, acc, c :: cs =>
    if c.isWhitespace then
      String.mk acc.reverse :: jsSplitWSAux fuel [] (cs.dropWhile Char.isWhitespace)
    else jsSplitWSAux fuel (c :: acc) cs

/-- `line.split(/\s+/)`. -/
def jsSplitWS (s : String) : List String :=
  jsSplitWSAux s.length [] s.data

/-- The `ps -p <pid> -o args=` fallback of the menu-bar command: trimmed
output, or the short command on a throw or an empty result. -/
def menubarFullCommand (psL : JSNum → ExecRes) (pid : JSNum) (command : String) :
    String :=
  match psL pid with
  | .error _ => command
  | .ok p => if jsTrim p = "" then command else jsTrim p

/-- Loop body of the menu-bar `getActivePorts` (lines 28-57): columnar
parse; rows with fewer than nine fields are skipped; dedup key is
`"<port>-<pid>"`, modelled as the (port, pid) pair, on which the string key
is injective. -/
def menubarStep (psL : JSNum → ExecRes) (m : List MenubarPortInfo)
    (line : String) : List MenubarPortInfo :=
  let parts := jsSplitWS line
  if parts.length < 9 then m
  else
    let command := parts.getD 0 ""
    let pid := parseIntJS (parts.getD 1 "")
    let name := parts.getD 8 ""
    match portOfName name with
    | none => m
    | some port =>
      if m.any (fun r => r.port == port && r.pid == pid) then m
      else
        let fullCommand := menubarFullCommand psL pid command
        m ++ [⟨port, pid, fullCommand,
          containsSub (lowerChars fullCommand) "vite".data
            || containsSub (lowerChars fullCommand) "@vitejs".data⟩]

/-- `getActivePorts` of the menu-bar command (`src/unnamed/part_000`,
lines 18-63): the whole body sits in a `try`, so any thrown error returns
the empty list. -/
def getMenubarActivePorts (out : ExecRes) (psL : JSNum → ExecRes) :
    List MenubarPortInfo :=
  match out with
  | .error _ => []
  | .ok output =>
    let lines := (jsSplitNewline (jsTrim output)).filter (fun l => l ≠ "")
    (lines.foldl (menubarStep psL) []).insertionSort (fun a b => a.port ≤ b.port)

instance : IsTotal PortInfo (fun a b => a.port ≤ b.port) :=
  ⟨fun a b => Nat.le_total a.port b.port⟩

instance : IsTrans PortInfo (fun a b => a.port ≤ b.port) :=
  ⟨fun _ _ _ => Nat.le_trans⟩

/-- Invariant of the parse loop, for any starting state and accumulated map:
(1) a port is in the final map iff it was already there or appears on some
valid `n` line; (2) map keys stay duplicate-free; (3) a port not yet in the
map ends up bound to the record built at its first `n` line; (4) a port
already in the map keeps its original record. -/
lemma parse_inv (dm : List (Nat × DockerInfo)) (cwdL psL : JSNum → ExecRes) :
    ∀ (lines : List String) (st : PState) (m : List PortInfo),
      (∀ p : Nat,
        p ∈ (List.foldl (parseStep dm cwdL psL) (st, m) lines).2.map (fun r => r.port) ↔
          (p ∈ m.map (fun r => r.port) ∨ p ∈ extractedPorts lines)) ∧
      ((m.map (fun r => r.port)).Nodup →
        ((List.foldl (parseStep dm cwdL psL) (st, m) lines).2.map (fun r => r.port)).Nodup) ∧
      (∀ p : Nat, p ∉ m.map (fun r => r.port) →
        (List.foldl (parseStep dm cwdL psL) (st, m) lines).2.find? (fun r => r.port == p)
          = firstRecordFor dm cwdL psL p st lines) ∧
      (∀ p : Nat, p ∈ m.map (fun r => r.port) →
        (List.foldl (parseStep dm cwdL psL) (st, m) lines).2.find? (fun r => r.port == p)
          = m.find? (fun r => r.port == p)) := by
  intro lines
  induction lines with
  | nil =>
    intro st m
    refine ⟨?_, fun h => h, ?_, fun p _ => rfl⟩
    · intro p; simp [extractedPorts]
    · intro p hp
      simp only [List.foldl_nil, firstRecordFor]
      rw [List.find?_eq_none]
      intro x hx
      simp only [beq_iff_eq]
      intro hxe
      exact hp (List.mem_map.mpr ⟨x, hx, hxe⟩)
  | cons line rest ih =>
    intro st m
    cases hv : lineView line with
    | skip =>
      simpa only [List.foldl_cons, parseStep, hv, extractedPorts, firstRecordFor] using ih st m
    | setPid v =>
      simpa only [List.foldl_cons, parseStep, hv, extractedPorts, firstRecordFor]
        using ih { st with pid := parseIntJS v } m
    | setCmd v =>
      simpa only [List.foldl_cons, parseStep, hv, extractedPorts, firstRecordFor]
        using ih { st with cmd := v } m
    | setUser v =>
      simpa only [List.foldl_cons, parseStep, hv, extractedPorts, firstRecordFor]
        using ih { st with user := v } m
    | nPort q =>
      by_cases hq : q ∈ m.map (fun r => r.port)
      · have hany : m.any (fun r => r.port == q) = true := by
          rw [List.any_eq_true]
          obtain ⟨x, hx, hxq⟩ := List.mem_map.mp hq
          exact ⟨x, hx, by simp [hxq]⟩
        obtain ⟨ih1, ih2, ih3, ih4⟩ := ih st m
        simp only [List.foldl_cons, parseStep, hv, hany, if_true]
        refine ⟨?_, ih2, ?_, ih4⟩
        · intro p
          rw [ih1]
          simp only [extractedPorts, hv, List.mem_cons]
          by_cases hpq : p = q
          · subst hpq; tauto
          · tauto
        · intro p hp
          have hpq : ¬(q = p) := fun h => hp (h ▸ hq)
          rw [ih3 p hp]
          simp [firstRecordFor, hv, hpq]
      · have hany : m.any (fun r => r.port == q) = false := by
          rw [Bool.eq_false_iff]
          intro hc
          rw [List.any_eq_true] at hc
          obtain ⟨x, hx, hxq⟩ := hc
          exact hq (List.mem_map.mpr ⟨x, hx, by simpa using hxq⟩)
        have hr0 : (mkRecord dm cwdL psL st q).port = q := rfl
        have hports : (m ++ [mkRecord dm cwdL psL st q]).map (fun r => r.port)
            = m.map (fun r => r.port) ++ [q] := by
          simp [hr0]
        obtain ⟨ih1, ih2, ih3, ih4⟩ := ih st (m ++ [mkRecord dm cwdL psL st q])
        simp only [List.foldl_cons, parseStep, hv, hany, Bool.false_eq_true, if_false]
        refine ⟨?_, ?_, ?_, ?_⟩
        · intro p
          rw [ih1, hports]
          simp only [extractedPorts, hv, List.mem_cons, List.mem_append,
            List.mem_singleton]
          tauto
        · intro hnd
          refine ih2 ?_
          rw [hports, List.nodup_append]
          refine ⟨hnd, List.nodup_singleton q, ?_⟩
          intro a ha hb
          rw [List.mem_singleton] at hb
          exact hq (hb ▸ ha)
        · intro p hp
          by_cases hpq : p = q
          · subst hpq
            have hp' : p ∈ (m ++ [mkRecord dm cwdL psL st p]).map (fun r => r.port) := by
              rw [hports]; simp
            rw [ih4 p hp', List.find?_append]
            have hnone : m.find? (fun r => r.port == p) = none := by
              rw [List.find?_eq_none]
              intro x hx
              simp only [beq_iff_eq]
              exact fun hxe => hp (List.mem_map.mpr ⟨x, hx, hxe⟩)
            rw [hnone]
            simp [firstRecordFor, hv, List.find?, hr0]
          · have hp' : p ∉ (m ++ [mkRecord dm cwdL psL st q]).map (fun r => r.port) := by
              rw [hports]
              simp only [List.mem_append, List.mem_singleton]
              tauto
            rw [ih3 p hp']
            have hqp : ¬(q = p) := fun h => hpq h.symm
            simp [firstRecordFor, hv, hqp]
        · intro p hp
          have hp' : p ∈ (m ++ [mkRecord dm cwdL psL st q]).map (fun r => r.port) := by
            rw [hports]; simp only [List.mem_append, List.mem_singleton]; tauto
          rw [ih4 p hp', List.find?_append]
          obtain ⟨x, hx, hxp⟩ := List.mem_map.mp hp
          have hsome : (m.find? (fun r => r.port == p)).isSome := by
            rw [List.find?_isSome]
            exact ⟨x, hx, by simp [hxp]⟩
          cases hfm : m.find? (fun r => r.port == p) with
          | none => rw [hfm] at hsome; simp at hsome
          | some y => simp [Option.or]

/-- C1: the parser yields exactly one record per distinct port of the raw
listing (dedup by port alone), the output is sorted strictly ascending by
port, and every emitted record is the one built at the first `n` line seen
for its port (first-seen pid/command/user wins). -/
theorem C1_parser_dedup_sorted (dm : List (Nat × DockerInfo))
    (cwdL psL : JSNum → ExecRes) (lines : List String) :
    (parseActivePorts dm cwdL psL lines).length = (extractedPorts lines).dedup.length ∧
    ((parseActivePorts dm cwdL psL lines).map (fun r => r.port)).Pairwise (· < ·) ∧
    ∀ r ∈ parseActivePorts dm cwdL psL lines,
      firstRecordFor dm cwdL psL r.port initPState lines = some r := by
  obtain ⟨h1, h2, h3, -⟩ := parse_inv dm cwdL psL lines initPState []
  have hmem : ∀ p : Nat,
      p ∈ (parsePorts dm cwdL psL lines).map (fun r => r.port) ↔ p ∈ extractedPorts lines := by
    intro p
    rw [parsePorts, h1 p]
    simp
  have hnd : ((parsePorts dm cwdL psL lines).map (fun r => r.port)).Nodup := h2 (by simp)
  have hfind : ∀ p : Nat,
      (parsePorts dm cwdL psL lines).find? (fun r => r.port == p)
        = firstRecordFor dm cwdL psL p initPState lines := by
    intro p
    exact h3 p (by simp)
  have hperm : List.Perm (parseActivePorts dm cwdL psL lines) (parsePorts dm cwdL psL lines) :=
    List.perm_insertionSort _ _
  have hpermmap : List.Perm ((parseActivePorts dm cwdL psL lines).map (fun r => r.port))
      ((parsePorts dm cwdL psL lines).map (fun r => r.port)) := hperm.map _
  refine ⟨?_, ?_, ?_⟩
  · have e1 : (parseActivePorts dm cwdL psL lines).length
        = ((parsePorts dm cwdL psL lines).map (fun r => r.port)).length := by
      rw [List.length_map]
      exact hperm.length_eq
    have e2 : ((parsePorts dm cwdL psL lines).map (fun r => r.port)).toFinset
        = (extractedPorts lines).toFinset := by
      ext p
      simp only [List.mem_toFinset]
      exact hmem p
    calc (parseActivePorts dm cwdL psL lines).length
        = ((parsePorts dm cwdL psL lines).map (fun r => r.port)).length := e1
      _ = ((parsePorts dm cwdL psL lines).map (fun r => r.port)).toFinset.card :=
          (List.toFinset_card_of_nodup hnd).symm
      _ = (extractedPorts lines).toFinset.card := by rw [e2]
      _ = (extractedPorts lines).dedup.length := List.card_toFinset _
  · have hsorted : List.Sorted (fun a b : PortInfo => a.port ≤ b.port)
        (parseActivePorts dm cwdL psL lines) := List.sorted_insertionSort _ _
    have hle : ((parseActivePorts dm cwdL psL lines).map (fun r => r.port)).Pairwise
        (· ≤ ·) := List.pairwise_map.mpr hsorted
    have hnd' : ((parseActivePorts dm cwdL psL lines).map (fun r => r.port)).Nodup :=
      hpermmap.nodup_iff.mpr hnd
    exact (hle.and hnd').imp fun h => lt_of_le_of_ne h.1 h.2
  · intro r hr
    have hrL : r ∈ parsePorts dm cwdL psL lines := hperm.mem_iff.mp hr
    rw [← hfind r.port]
    cases hE : (parsePorts dm cwdL psL lines).find? (fun x => x.port == r.port) with
    | none =>
      rw [List.find?_eq_none] at hE
      exact absurd (by simp : (r.port == r.port) = true) (hE r hrL)
    | some x =>
      have hpx : x.port = r.port := by simpa using List.find?_some hE
      have hxL : x ∈ parsePorts dm cwdL psL lines := List.mem_of_find?_eq_some hE
      have : x = r := List.inj_on_of_nodup_map hnd hxL hrL hpx
      rw [this]

/-- C1 at a concrete raw listing: two processes, three valid `n` lines, two
distinct ports. -/
theorem C1_witness :
    (parseActivePorts [] (fun _ => .error ()) (fun _ => .error ())
        ["p10", "cnode", "Lroot", "n*:80", "n127.0.0.1:80", "p20", "cnginx", "Lwww", "n*:8080"]).length
      = (extractedPorts
        ["p10", "cnode", "Lroot", "n*:80", "n127.0.0.1:80", "p20", "cnginx", "Lwww", "n*:8080"]).dedup.length :=
  (C1_parser_dedup_sorted [] (fun _ => .error ()) (fun _ => .error ())
    ["p10", "cnode", "Lroot", "n*:80", "n127.0.0.1:80", "p20", "cnginx", "Lwww", "n*:8080"]).1

/-- C3 counterexample: when the `lsof` enumeration command throws (non-zero
exit), the main command's `getActivePorts` has no `try` around it, so the
error propagates instead of yielding the empty sequence. -/
theorem C3_counterexample :
    getActivePorts (.error "lsof exited with status 1") (.error ())
        (fun _ => .error ()) (fun _ => .error ())
      = .error "lsof exited with status 1" ∧
    getActivePorts (.error "lsof exited with status 1") (.error ())
        (fun _ => .error ()) (fun _ => .error ())
      ≠ .ok [] := by
  exact ⟨rfl, by simp [getActivePorts]⟩

/-- C3 amended: the menu-bar command's enumeration is wrapped in `try` and
degrades to the empty list on any failure, and the main command returns the
empty list when the enumeration output is unreadable-as-empty (whitespace
only); but a thrown enumeration failure in the main command propagates
unchanged. -/
theorem C3_amended (e : String) (dockerOut : ExecRes) (cwdL psL : JSNum → ExecRes)
    (out : String) (hout : jsTrim out = "") :
    getActivePorts (.error e) dockerOut cwdL psL = .error e ∧
    getMenubarActivePorts (.error ()) psL = [] ∧
    getActivePorts (.ok out) dockerOut cwdL psL = .ok [] := by
  refine ⟨rfl, rfl, ?_⟩
  simp [getActivePorts, hout]

/-- C3 amended, witnessed on a failing enumeration and a whitespace-only
output. -/
theorem C3_amended_witness :
    getActivePorts (.error "boom") (.error ()) (fun _ => .error ()) (fun _ => .error ())
      = .error "boom" ∧
    getMenubarActivePorts (.error ()) (fun _ => .error ()) = [] ∧
    getActivePorts (.ok "  \n ") (.error ()) (fun _ => .error ()) (fun _ => .error ())
      = .ok [] :=
  C3_amended "boom" (.error ()) (fun _ => .error ()) (fun _ => .error ())
    "  \n " (by decide)

/-- C4 counterexample: when the working-directory lookup throws and the
full-command (`ps`) lookup would have succeeded with a nonempty result, the
shared `try` block aborts before the `ps` assignment, so the record keeps
the short command name — the two lookups do not have independent failure
domains. -/
theorem C4_counterexample :
    enrich (.error ()) (.ok "npm run dev -- --port 3000") "node" = (none, "node") ∧
    ("node" : String) ≠ "npm run dev -- --port 3000" := by
  exact ⟨rfl, by decide⟩

/-- C4 amended: both lookups live in one `try` block ordered cwd-first.  A
`ps` failure or empty `ps` output after a successful cwd lookup keeps the
cwd and falls back to the short command name; a cwd failure forfeits the
`ps` result as well, falling back on both; record construction itself never
aborts (the record's command and cwd are exactly the enrichment output). -/
theorem C4_amended (c p cmd : String) (dm : List (Nat × DockerInfo))
    (cwdL psL : JSNum → ExecRes) (st : PState) (port : Nat) :
    enrich (.ok c) (.error ()) cmd = (if jsTrim c = "" then none else some (jsTrim c), cmd) ∧
    enrich (.ok c) (.ok "") cmd = (if jsTrim c = "" then none else some (jsTrim c), cmd) ∧
    enrich (.error ()) (.ok p) cmd = (none, cmd) ∧
    (mkRecord dm cwdL psL st port).command = (enrich (cwdL st.pid) (psL st.pid) st.cmd).2 ∧
    (mkRecord dm cwdL psL st port).cwd = (enrich (cwdL st.pid) (psL st.pid) st.cmd).1 := by
  exact ⟨rfl, rfl, rfl, rfl, rfl⟩

/-- C4 amended, witnessed at concrete lookup results. -/
theorem C4_amended_witness :
    enrich (.ok "/srv/app") (.error ()) "python"
      = (if jsTrim "/srv/app" = "" then none else some (jsTrim "/srv/app"),
        "python") :=
  (C4_amended "/srv/app" "" "python" [] (fun _ => .error ()) (fun _ => .error ())
    initPState 80).1

/-- Claim-side reading of a decimal integer numeral: a string denotes a
natural number exactly when it is nonempty and all digits. -/
def decimalNat (s : String) : Option Nat :=
  if !s.data.isEmpty && s.data.all Char.isDigit then some (natOfDigits s.data) else none

/-- C5 counterexample: `"8080.5"` denotes no integer, yet `parseInt` reads
its digit prefix `8080`, so the restart form accepts it and proceeds to
termination and launch instead of rejecting it. -/
theorem C5_counterexample :
    decimalNat "8080.5" = none ∧
    handleSubmitFastAPI "8080.5" true
        ⟨8000, some 41, "uvicorn main:app --port 8000", "dev", none,
          false, true, false, false, false, false, none, none⟩ true "/srv"
      = .confirmed true "/srv" "cd \"/srv\" && uvicorn main:app --port 8080 --reload" := by
  constructor
  · decide
  · decide

/-- C5 amended: a restart submission is rejected exactly when `parseInt`'s
reading of the string — leading whitespace and sign allowed, the maximal
leading digit run taken, trailing characters ignored — fails or falls
outside `[1, 65535]`; rejection happens before the kill and the launch.  In
particular `"0"`, `"65536"` and `"abc"` are rejected and `"8080"` is
accepted, but so are strings such as `"8080.5"` that denote no integer. -/
theorem C5_amended (s : String) (reload : Bool) (info : PortInfo) (k : Bool)
    (ccwd : String) :
    (handleSubmitFastAPI s reload info k ccwd = .rejected ↔
      ∀ n : Int, parseIntJS s = some n → (n < 1 ∨ 65535 < n)) ∧
    (handleSubmitVite s info k ccwd = .rejected ↔
      ∀ n : Int, parseIntJS s = some n → (n < 1 ∨ 65535 < n)) ∧
    handleSubmitFastAPI "0" reload info k ccwd = .rejected ∧
    handleSubmitFastAPI "65536" reload info k ccwd = .rejected ∧
    handleSubmitFastAPI "abc" reload info k ccwd = .rejected ∧
    handleSubmitFastAPI "8080" reload info k ccwd ≠ .rejected := by
  have h0 : parseIntJS "0" = some 0 := by decide
  have h65536 : parseIntJS "65536" = some 65536 := by decide
  have habc : parseIntJS "abc" = none := by decide
  have h8080 : parseIntJS "8080" = some 8080 := by decide
  refine ⟨?_, ?_, ?_, ?_, ?_, ?_⟩
  · cases hp : parseIntJS s with
    | none => simp [handleSubmitFastAPI, hp]
    | some n =>
      simp only [handleSubmitFastAPI, hp]
      by_cases hr : n < 1 ∨ n > 65535
      · rw [if_pos hr]
        refine ⟨fun _ m hm => ?_, fun _ => rfl⟩
        injection hm with hm2
        exact hm2 ▸ hr
      · rw [if_neg hr]
        exact ⟨fun hc => RestartOutcome.noConfusion hc, fun hall => absurd (hall n rfl) hr⟩
  · cases hp : parseIntJS s with
    | none => simp [handleSubmitVite, hp]
    | some n =>
      simp only [handleSubmitVite, hp]
      by_cases hr : n < 1 ∨ n > 65535
      · rw [if_pos hr]
        refine ⟨fun _ m hm => ?_, fun _ => rfl⟩
        injection hm with hm2
        exact hm2 ▸ hr
      · rw [if_neg hr]
        exact ⟨fun hc => RestartOutcome.noConfusion hc, fun hall => absurd (hall n rfl) hr⟩
  · rfl
  · rfl
  · rfl
  · exact fun hc => RestartOutcome.noConfusion hc

/-- C5 amended, witnessed at a concrete record. -/
theorem C5_amended_witness :
    handleSubmitFastAPI "0" true
        ⟨3000, some 7, "node vite", "dev", none,
          true, false, false, false, false, true, none, none⟩ true "/w"
      = .rejected :=
  (C5_amended "0" true
    ⟨3000, some 7, "node vite", "dev", none,
      true, false, false, false, false, true, none, none⟩ true "/w").2.2.1

/-- C6: once the target port validates, both restart forms reach the
confirmed outcome with the same directory and launch command whether the
termination attempt succeeds or fails — the `try/catch` around the kill
swallows the failure and the workflow proceeds to the launch
unconditionally. -/
theorem C6_restart_reaches_confirmed (s : String) (n : Int)
    (h1 : parseIntJS s = some n) (h2 : 1 ≤ n) (h3 : n ≤ 65535)
    (reload : Bool) (info : PortInfo) (ccwd : String) :
    (∃ d l, ∀ k : Bool, handleSubmitFastAPI s reload info k ccwd = .confirmed k d l) ∧
    (∃ d l, ∀ k : Bool, handleSubmitVite s info k ccwd = .confirmed k d l) := by
  have hr : ¬(n < 1 ∨ n > 65535) := by omega
  constructor
  · refine ⟨jsOr info.cwd ccwd,
      "cd \"" ++ jsOr info.cwd ccwd ++ "\" && uvicorn " ++ appModuleOf info.command
        ++ " --port " ++ toString n ++ (if reload then " --reload" else ""),
      fun k => ?_⟩
    simp only [handleSubmitFastAPI, h1]
    rw [if_neg hr]
  · refine ⟨jsOr info.cwd ccwd,
      "cd \"" ++ jsOr info.cwd ccwd ++ "\" && npm run dev -- --port " ++ toString n,
      fun k => ?_⟩
    simp only [handleSubmitVite, h1]
    rw [if_neg hr]

/-- C6, witnessed at a concrete FastAPI record and target port 8001. -/
theorem C6_witness :
    (∃ d l, ∀ k : Bool, handleSubmitFastAPI "8001" true
        ⟨8000, some 41, "uvicorn main:app --port 8000", "dev", some "/proj",
          false, true, false, false, false, false, none, none⟩ k "/caller"
        = .confirmed k d l) ∧
    (∃ d l, ∀ k : Bool, handleSubmitVite "8001"
        ⟨8000, some 41, "uvicorn main:app --port 8000", "dev", some "/proj",
          false, true, false, false, false, false, none, none⟩ k "/caller"
        = .confirmed k d l) :=
  C6_restart_reaches_confirmed "8001" 8001 (by decide) (by decide) (by decide) true
    ⟨8000, some 41, "uvicorn main:app --port 8000", "dev", some "/proj",
      false, true, false, false, false, false, none, none⟩ "/caller"

/-- C7 counterexample: a record whose command contains the substring
`uvicorn main:app --port 8000` but whose *first* `uvicorn <token>`
occurrence is a different module gets relaunched with that first module,
not `main:app`. -/
theorem C7_counterexample :
    containsSub "uvicorn a:b && uvicorn main:app --port 8000".data
        "uvicorn main:app --port 8000".data = true ∧
    handleSubmitFastAPI "8001" true
        ⟨8000, some 41, "uvicorn a:b && uvicorn main:app --port 8000", "dev", some "/proj",
          false, true, false, false, false, false, none, none⟩ true "/caller"
      = .confirmed true "/proj" "cd \"/proj\" && uvicorn a:b --port 8001 --reload" ∧
    ("cd \"/proj\" && uvicorn a:b --port 8001 --reload" : String)
      ≠ "cd \"/proj\" && uvicorn main:app --port 8001 --reload" := by
  refine ⟨by decide, by decide, by decide⟩

/-- C7 amended: for a record whose command is `uvicorn main:app --port
8000` (so its first `uvicorn <token>` occurrence is `main:app`), a restart
to port 8001 with reload issues `uvicorn main:app --port 8001 --reload` in
the record's working directory, falling back to the caller's working
directory when none was recorded. -/
theorem C7_amended (info : PortInfo) (ccwd : String) (k : Bool)
    (hcmd : info.command = "uvicorn main:app --port 8000") :
    (info.cwd = none → handleSubmitFastAPI "8001" true info k ccwd
        = .confirmed k ccwd
          ("cd \"" ++ ccwd ++ "\" && uvicorn main:app --port 8001 --reload")) ∧
    (∀ d, info.cwd = some d → d ≠ "" → handleSubmitFastAPI "8001" true info k ccwd
        = .confirmed k d
          ("cd \"" ++ d ++ "\" && uvicorn main:app --port 8001 --reload")) := by
  have hp : parseIntJS "8001" = some 8001 := by decide
  have happ : appModuleOf "uvicorn main:app --port 8000" = "main:app" := by decide
  have hlaunch : ∀ d : String,
      "cd \"" ++ d ++ "\" && uvicorn " ++ "main:app" ++ " --port "
          ++ toString (8001 : Int) ++ " --reload"
        = "cd \"" ++ d ++ "\" && uvicorn main:app --port 8001 --reload" := by
    intro d
    apply String.ext
    simp only [String.data_append, List.append_assoc]
    congr 1
  constructor
  · intro hnone
    simp only [handleSubmitFastAPI, hp, hcmd]
    rw [if_neg (by decide : ¬((8001 : Int) < 1 ∨ (8001 : Int) > 65535))]
    simp only [jsOr, hnone, happ, if_true]
    exact congrArg (RestartOutcome.confirmed k ccwd) (hlaunch ccwd)
  · intro d hd hde
    simp only [handleSubmitFastAPI, hp, hcmd]
    rw [if_neg (by decide : ¬((8001 : Int) < 1 ∨ (8001 : Int) > 65535))]
    simp only [jsOr, hd, happ, if_true]
    rw [if_neg hde]
    exact congrArg (RestartOutcome.confirmed k d) (hlaunch d)

/-- C7 amended, witnessed at a record with a recorded working directory. -/
theorem C7_amended_witness :
    handleSubmitFastAPI "8001" true
        ⟨8000, some 41, "uvicorn main:app --port 8000", "dev", some "/proj",
          false, true, false, false, false, false, none, none⟩ true "/caller"
      = .confirmed true "/proj"
        ("cd \"" ++ "/proj" ++ "\" && uvicorn main:app --port 8001 --reload") :=
  (C7_amended
    ⟨8000, some 41, "uvicorn main:app --port 8000", "dev", some "/proj",
      false, true, false, false, false, false, none, none⟩ "/caller" true rfl).2
    "/proj" rfl (by decide)

/-- The leftmost scan returns `none` when no start position matches. -/
lemma scanUvicorn_eq_none (l : List Char)
    (h : ∀ i : Nat, tryUvicornAt (l.drop i) = none) : scanUvicorn l = none := by
  induction l with
  | nil => rfl
  | cons c tl ih =>
    have h0 := h 0
    simp only [List.drop_zero] at h0
    simp only [scanUvicorn, h0]
    exact ih (fun i => by simpa using h (i + 1))

/-- The leftmost scan returns the token of the least matching position. -/
lemma scanUvicorn_eq_some (i : Nat) :
    ∀ (l : List Char) (tok : String), tryUvicornAt (l.drop i) = some tok →
      (∀ j, j < i → tryUvicornAt (l.drop j) = none) → scanUvicorn l = some tok := by
  induction i with
  | zero =>
    intro l tok h _
    simp only [List.drop_zero] at h
    cases l with
    | nil =>
      rw [show tryUvicornAt ([] : List Char) = none from rfl] at h
      exact Option.noConfusion h
    | cons c tl => simp only [scanUvicorn, h]
  | succ i ih =>
    intro l tok h hmin
    cases l with
    | nil =>
      rw [List.drop_nil, show tryUvicornAt ([] : List Char) = none from rfl] at h
      exact Option.noConfusion h
    | cons c tl =>
      have h0 : tryUvicornAt (c :: tl) = none := by simpa using hmin 0 (Nat.succ_pos i)
      simp only [scanUvicorn, h0]
      refine ih tl tok (by simpa using h) ?_
      intro j hj
      simpa using hmin (j + 1) (Nat.succ_lt_succ hj)

/-- C10: the FastAPI relaunch uses the default module `main:app` when no
position of the command matches `uvicorn` followed by whitespace and a
token, and otherwise the token captured at the first matching position. -/
theorem C10_app_module (c : String) :
    ((∀ i : Nat, tryUvicornAt (c.data.drop i) = none) → appModuleOf c = "main:app") ∧
    (∀ (i : Nat) (tok : String), tryUvicornAt (c.data.drop i) = some tok →
      (∀ j, j < i → tryUvicornAt (c.data.drop j) = none) → appModuleOf c = tok) := by
  constructor
  · intro h
    unfold appModuleOf extractAppModule
    rw [scanUvicorn_eq_none c.data h]
    rfl
  · intro i tok h hmin
    unfold appModuleOf extractAppModule
    rw [scanUvicorn_eq_some i c.data tok h hmin]
    rfl

/-- C10, witnessed on a command whose first match sits after a 7-character
prefix. -/
theorem C10_witness :
    appModuleOf "python uvicorn main:app --port 8000" = "main:app" :=
  (C10_app_module "python uvicorn main:app --port 8000").2 7 "main:app"
    (by decide) (by decide)

/-- `Map.get` on an appended-bindings map reads the value of the last
binding for the key: last-match-wins. -/
lemma dockerGet_last (m : List (Nat × DockerInfo)) (p : Nat) :
    dockerGet m p = ((m.filter (fun e => e.1 == p)).getLast?).map (fun e => e.2) := by
  induction m using List.reverseRecOn with
  | nil => rfl
  | append_singleton l a ih =>
    rw [dockerGet, List.reverse_append]
    simp only [List.reverse_singleton, List.singleton_append]
    rw [List.filter_append]
    cases ha : (a.1 == p) with
    | true =>
      have hfind : List.find? (fun e : Nat × DockerInfo => e.1 == p) (a :: l.reverse)
          = some a := by simp [List.find?, ha]
      rw [hfind]
      simp [List.filter_cons, ha, List.getLast?_concat]
    | false =>
      have hfind : List.find? (fun e : Nat × DockerInfo => e.1 == p) (a :: l.reverse)
          = List.find? (fun e : Nat × DockerInfo => e.1 == p) l.reverse := by
        simp [List.find?, ha]
      rw [hfind, ← dockerGet, ih]
      simp [List.filter_cons, ha]

/-- Every record assembled under an empty container map has absent container
fields, whatever the raw lines and the running state. -/
lemma parse_docker_none (cwdL psL : JSNum → ExecRes) :
    ∀ (lines : List String) (st : PState) (m : List PortInfo),
      (∀ r ∈ m, r.dockerContainer = none ∧ r.dockerImage = none) →
      ∀ r ∈ (List.foldl (parseStep [] cwdL psL) (st, m) lines).2,
        r.dockerContainer = none ∧ r.dockerImage = none := by
  intro lines
  induction lines with
  | nil => intro st m hm r hr; exact hm r hr
  | cons line rest ih =>
    intro st m hm
    cases hv : lineView line with
    | skip => simpa only [List.foldl_cons, parseStep, hv] using ih st m hm
    | setPid v =>
      simpa only [List.foldl_cons, parseStep, hv] using ih { st with pid := parseIntJS v } m hm
    | setCmd v =>
      simpa only [List.foldl_cons, parseStep, hv] using ih { st with cmd := v } m hm
    | setUser v =>
      simpa only [List.foldl_cons, parseStep, hv] using ih { st with user := v } m hm
    | nPort q =>
      cases hq : m.any (fun r => r.port == q) with
      | true =>
        simpa only [List.foldl_cons, parseStep, hv, hq, if_true] using ih st m hm
      | false =>
        simp only [List.foldl_cons, parseStep, hv, hq, Bool.false_eq_true, if_false]
        refine ih st (m ++ [mkRecord [] cwdL psL st q]) ?_
        intro r hr
        rcases List.mem_append.mp hr with h | h
        · exact hm r h
        · rw [List.mem_singleton.mp h]
          exact ⟨rfl, rfl⟩

/-- C8: a failing container query and a query returning no rows both yield
the empty port map; the map reads back, for each host port, the container
identity of the last binding for that port (last-match-wins, shown also on
a concrete listing where port 3000 appears under two containers); and under
an empty map every assembled record has absent container fields. -/
theorem C8_container_map (lines : List String) (cwdL psL : JSNum → ExecRes)
    (m : List (Nat × DockerInfo)) (p : Nat) :
    getDockerPorts (.error ()) = [] ∧
    getDockerPorts (.ok "") = [] ∧
    dockerGet m p = ((m.filter (fun e => e.1 == p)).getLast?).map (fun e => e.2) ∧
    dockerGet (getDockerPorts (.ok
        "web\t0.0.0.0:3000->3000/tcp\tnginx:1\napi\t0.0.0.0:3000->3000/tcp, :::3000->3000/tcp\tnode:20"))
      3000 = some ⟨"api", some "node:20"⟩ ∧
    ∀ r ∈ parseActivePorts [] cwdL psL lines,
      r.dockerContainer = none ∧ r.dockerImage = none := by
  refine ⟨rfl, by decide, dockerGet_last m p, by decide, ?_⟩
  intro r hr
  have hrL : r ∈ parsePorts [] cwdL psL lines :=
    (List.perm_insertionSort _ _).mem_iff.mp hr
  exact parse_docker_none cwdL psL lines initPState []
    (fun r h => absurd h (List.not_mem_nil r)) r hrL

/-- C8, witnessed on a single-listener raw listing parsed under the empty
container map. -/
theorem C8_witness :
    (⟨80, some 0, "", "", none, false, false, false, false, false, false, none, none⟩ :
        PortInfo).dockerContainer = none ∧
    (⟨80, some 0, "", "", none, false, false, false, false, false, false, none, none⟩ :
        PortInfo).dockerImage = none :=
  (C8_container_map ["n*:80"] (fun _ => .error ()) (fun _ => .error ()) [] 0).2.2.2.2
    ⟨80, some 0, "", "", none, false, false, false, false, false, false, none, none⟩
    (by decide)

/-- C9: the stored hidden-port set only grows under `hidePort` (no
auto-pruning of dead listeners happens anywhere), hiding an already-hidden
port leaves the stored set unchanged (hide is idempotent and preserves
freedom from duplicates), and `unhidePort` removes exactly the named
port. -/
theorem C9_hidden_set (s : List Nat) (p q : Nat) (hnd : s.Nodup) :
    (∀ x ∈ s, x ∈ hidePort s p) ∧
    (p ∈ s → hidePort s p = s) ∧
    hidePort (hidePort s p) p = hidePort s p ∧
    (hidePort s p).Nodup ∧
    (unhidePort s p).Nodup ∧
    (q ∈ unhidePort s p ↔ q ∈ s ∧ q ≠ p) := by
  by_cases hp : p ∈ s
  · have h1 : hidePort s p = s := by simp [hidePort, hp]
    refine ⟨?_, fun _ => h1, ?_, ?_, hnd.filter _, ?_⟩
    · intro x hx; rw [h1]; exact hx
    · rw [h1, h1]
    · rw [h1]; exact hnd
    · simp [unhidePort, List.mem_filter]
  · have h1 : hidePort s p = s ++ [p] := by simp [hidePort, hp]
    refine ⟨?_, fun hps => absurd hps hp, ?_, ?_, hnd.filter _, ?_⟩
    · intro x hx; rw [h1]; exact List.mem_append_left _ hx
    · rw [h1]
      have hmem : p ∈ s ++ [p] := List.mem_append_right _ (List.mem_singleton_self p)
      simp [hidePort, hmem]
    · rw [h1, List.nodup_append]
      exact ⟨hnd, List.nodup_singleton p, fun a ha hb => hp ((List.mem_singleton.mp hb) ▸ ha)⟩
    · simp [unhidePort, List.mem_filter]

/-- C9, witnessed at a concrete stored set. -/
theorem C9_witness : hidePort [3000, 8080] 3000 = [3000, 8080] :=
  (C9_hidden_set [3000, 8080] 3000 0 (by decide)).2.1 (by decide)

end ActivePorts
